import Mathlib

/-!
# Verification of the decision-memo conversation engine

Shallow embedding of `src/index.js` (a Slack bot that turns pasted text,
thread transcripts or uploaded files into a five-section decision memo via
an external LLM, the "Draft Generator").

External nondeterminism (Draft Generator responses, Slack postMessage
success, file downloads) is passed in as explicit parameters; the JS
`try`/`catch` structure is embedded as total functions over those outcome
parameters.  JS strings are modelled as Lean `String`/`List Char`
(JS indexes UTF-16 code units; all inputs relevant to the claims are
ASCII so the difference is immaterial and noted where it arises).
-/

set_option maxRecDepth 100000

namespace DecisionMemo

/-- JSON values as produced by JS `JSON.parse`.  A number is kept as its
lexeme: JS converts it to a float, but no code path inspected by the
claims ever looks at a numeric value, only at array-ness and string
elements. -/
inductive Json where
  | null
  | bool (b : Bool)
  | num (lexeme : String)
  | str (s : String)
  | arr (elems : List Json)
  | obj (members : List (String × Json))

/-- JSON insignificant whitespace (RFC 8259): space, tab, LF, CR. -/
def isJsonWs (c : Char) : Bool :=
  c = ' ' || c = '\t' || c = '\n' || c = '\r'

/-- Drop leading JSON whitespace. -/
def skipWs (cs : List Char) : List Char :=
  cs.dropWhile isJsonWs

/-- Value of a hex digit, as used in `\uXXXX` string escapes. -/
def hexVal (c : Char) : Option Nat :=
  if '0' ≤ c ∧ c ≤ '9' then some (c.toNat - '0'.toNat)
  else if 'a' ≤ c ∧ c ≤ 'f' then some (c.toNat - 'a'.toNat + 10)
  else if 'A' ≤ c ∧ c ≤ 'F' then some (c.toNat - 'A'.toNat + 10)
  else none

/-- Single-character JSON string escapes. -/
def simpleEsc (c : Char) : Option Char :=
  if c = '"' then some '"'
  else if c = '\\' then some '\\'
  else if c = '/' then some '/'
  else if c = 'b' then some (Char.ofNat 8)
  else if c = 'f' then some (Char.ofNat 12)
  else if c = 'n' then some '\n'
  else if c = 'r' then some '\r'
  else if c = 't' then some '\t'
  else none

/-- The value of four hex digits, as in a `\uXXXX` escape. -/
def hexQuad (h1 h2 h3 h4 : Char) : Option Nat :=
  match hexVal h1, hexVal h2, hexVal h3, hexVal h4 with
  | some a, some b, some c, some d => some (((a * 16 + b) * 16 + c) * 16 + d)
  | _, _, _, _ => none

/-- Parse the body of a JSON string after the opening quote.  Returns the
decoded characters and the input remaining after the closing quote.
Raw control characters (below U+0020) are rejected, escapes are decoded,
`\uXXXX` surrogate pairs are combined into one scalar.  (JS, whose strings
are UTF-16, also accepts *lone* surrogates; Lean `Char` cannot represent
them so they are rejected here — no claim involves `\u` escapes at all.)
Every step consumes at least one character, so `fuel` at one more than
the input length never runs out; callers pass exactly that. -/
def parseStringBody : Nat → List Char → Option (List Char × List Char)
  | 0, _ => none
  | _ + 1, [] => none
  | fuel + 1, c :: rest =>
    if c = '"' then some ([], rest)
    else if c = '\\' then
      match rest with
      | [] => none
      | e :: rest2 =>
        if e = 'u' then
          match rest2 with
          | h1 :: h2 :: h3 :: h4 :: rest3 =>
            (match hexQuad h1 h2 h3 h4 with
             | none => none
             | some n =>
               if 0xD800 ≤ n ∧ n ≤ 0xDBFF then
                 match rest3 with
                 | b1 :: b2 :: g1 :: g2 :: g3 :: g4 :: rest4 =>
                   if b1 = '\\' ∧ b2 = 'u' then
                     match hexQuad g1 g2 g3 g4 with
                     | none => none
                     | some m =>
                       if 0xDC00 ≤ m ∧ m ≤ 0xDFFF then
                         match parseStringBody fuel rest4 with
                         | some (cs, r) =>
                           some (Char.ofNat (0x10000 + (n - 0xD800) * 0x400 + (m - 0xDC00)) :: cs, r)
                         | none => none
                       else none
                   else none
                 | _ => none
               else if 0xDC00 ≤ n ∧ n ≤ 0xDFFF then none
               else
                 match parseStringBody fuel rest3 with
                 | some (cs, r) => some (Char.ofNat n :: cs, r)
                 | none => none)
          | _ => none
        else
          match simpleEsc e with
          | some d =>
            (match parseStringBody fuel rest2 with
             | some (cs, r) => some (d :: cs, r)
             | none => none)
          | none => none
    else if c.toNat < 32 then none
    else
      match parseStringBody fuel rest with
      | some (cs, r) => some (c :: cs, r)
      | none => none

/-- Parse a JSON number lexeme: `-?(0|[1-9][0-9]*)(\.[0-9]+)?([eE][+-]?[0-9]+)?`. -/
def parseNumber (cs : List Char) : Option (Json × List Char) :=
  let signPart : List Char × List Char :=
    match cs with
    | '-' :: r => (['-'], r)
    | _ => ([], cs)
  let sign := signPart.1
  let cs1 := signPart.2
  let intPart : Option (List Char × List Char) :=
    match cs1 with
    | '0' :: r => some (['0'], r)
    | c :: r =>
      if '1' ≤ c ∧ c ≤ '9' then
        let ds := r.takeWhile Char.isDigit
        some (c :: ds, r.drop ds.length)
      else none
    | [] => none
  match intPart with
  | none => none
  | some (ip, rest1) =>
    let fracPart : Option (List Char × List Char) :=
      match rest1 with
      | '.' :: r =>
        let ds := r.takeWhile Char.isDigit
        if ds = [] then none else some ('.' :: ds, r.drop ds.length)
      | _ => some ([], rest1)
    match fracPart with
    | none => none
    | some (fp, rest2) =>
      let expPart : Option (List Char × List Char) :=
        match rest2 with
        | c :: r =>
          if c = 'e' ∨ c = 'E' then
            let signExp : List Char × List Char :=
              match r with
              | s :: r2 => if s = '+' ∨ s = '-' then ([s], r2) else ([], r)
              | [] => ([], r)
            let ds := signExp.2.takeWhile Char.isDigit
            if ds = [] then none
            else some (c :: (signExp.1 ++ ds), signExp.2.drop ds.length)
          else some ([], rest2)
        | [] => some ([], rest2)
      match expPart with
      | none => none
      | some (ep, rest3) => some (.num (String.mk (sign ++ ip ++ fp ++ ep)), rest3)

mutual

/-- Parse one JSON value; the input is expected to start at the value
(callers strip whitespace first, as `JSON.parse` does around tokens).
`fuel` bounds recursion depth; callers pass more fuel than any input can
consume, so exhaustion never occurs on real inputs. -/
def parseValue : Nat → List Char → Option (Json × List Char)
  | 0, _ => none
  | fuel + 1, cs =>
    match cs with
    | '{' :: rest =>
      (match skipWs rest with
       | '}' :: r2 => some (.obj [], r2)
       | r2 => parseMembers fuel r2 [])
    | '[' :: rest =>
      (match skipWs rest with
       | ']' :: r2 => some (.arr [], r2)
       | r2 => parseElems fuel r2 [])
    | '"' :: rest =>
      (match parseStringBody (rest.length + 1) rest with
       | some (s, r) => some (.str (String.mk s), r)
       | none => none)
    | 't' :: 'r' :: 'u' :: 'e' :: rest => some (.bool true, rest)
    | 'f' :: 'a' :: 'l' :: 's' :: 'e' :: rest => some (.bool false, rest)
    | 'n' :: 'u' :: 'l' :: 'l' :: rest => some (.null, rest)
    | other => parseNumber other

/-- Parse the elements of a non-empty JSON array, accumulating into `acc`. -/
def parseElems : Nat → List Char → List Json → Option (Json × List Char)
  | 0, _, _ => none
  | fuel + 1, cs, acc =>
    match parseValue fuel (skipWs cs) with
    | some (v, r) =>
      (match skipWs r with
       | ',' :: r2 => parseElems fuel r2 (acc ++ [v])
       | ']' :: r2 => some (.arr (acc ++ [v]), r2)
       | _ => none)
    | none => none

/-- Parse the members of a non-empty JSON object, accumulating into `acc`. -/
def parseMembers : Nat → List Char → List (String × Json) → Option (Json × List Char)
  | 0, _, _ => none
  | fuel + 1, cs, acc =>
    match cs with
    | '"' :: rest =>
      (match parseStringBody (rest.length + 1) rest with
       | some (k, r) =>
         (match skipWs r with
          | ':' :: r2 =>
            (match parseValue fuel (skipWs r2) with
             | some (v, r3) =>
               (match skipWs r3 with
                | ',' :: r4 => parseMembers fuel (skipWs r4) (acc ++ [(String.mk k, v)])
                | '}' :: r4 => some (.obj (acc ++ [(String.mk k, v)]), r4)
                | _ => none)
             | none => none)
          | _ => none)
       | none => none)
    | _ => none

end

/-- Model of JS `JSON.parse`: parse one value surrounded by optional
whitespace; any trailing non-whitespace makes the whole parse fail
(`JSON.parse` throws).  `none` models the thrown `SyntaxError`. -/
def jsJsonParse (s : String) : Option Json :=
  match parseValue (2 * s.data.length + 2) (skipWs s.data) with
  | some (v, rest) => if skipWs rest = [] then some v else none
  | none => none

/-! ## Question Planner: tolerant parsing of the Draft Generator response
(`generateClarifyingQuestions`, src/index.js lines 717-814).  The prompt
construction and the HTTP call itself carry no state; what matters is how
the response text (or the call's failure) is turned into a question list. -/

/-- The whitespace class removed by JS `String.prototype.trim`. -/
def isJsWsChar (c : Char) : Bool :=
  c = ' ' || (9 ≤ c.toNat ∧ c.toNat ≤ 13) || c.toNat = 0xa0 ||
  c.toNat = 0x1680 || (0x2000 ≤ c.toNat ∧ c.toNat ≤ 0x200a) ||
  c.toNat = 0x2028 || c.toNat = 0x2029 || c.toNat = 0x202f ||
  c.toNat = 0x205f || c.toNat = 0x3000 || c.toNat = 0xfeff

/-- JS `.trim()` on a character list. -/
def trimChars (l : List Char) : List Char :=
  ((l.dropWhile isJsWsChar).reverse.dropWhile isJsWsChar).reverse

/-- Given the characters after a `[`, cut at the *last* `]` of the input
(the greedy `.*` of `/\[(.*)\]/s`); `none` when no `]` follows. -/
def bodyToLastClose (rest : List Char) : Option (List Char) :=
  match rest.reverse.dropWhile (fun c => c ≠ ']') with
  | [] => none
  | _ :: t => some t.reverse

/-- `messageContent.match(/\[(.*)\]/s)`: the leftmost `[` that still has a
`]` somewhere after it, capturing greedily up to the last such `]`. -/
def bracketBody : List Char → Option (List Char)
  | [] => none
  | c :: rest =>
    if c = '[' then
      match bodyToLastClose rest with
      | some body => some body
      | none => bracketBody rest
    else bracketBody rest

/-- Prepend a character onto the first piece of a split result. -/
def consFirst (c : Char) : List (List Char) → List (List Char)
  | p :: ps => (c :: p) :: ps
  | [] => [[c]]

/-! ## Small text utilities (also used by theorem statements) -/

/-- `leadsWith n l`: `l` begins with the character sequence `n`. -/
def leadsWith : List Char → List Char → Bool
  | [], _ => true
  | _ :: _, [] => false
  | a :: as, b :: bs => a = b && leadsWith as bs

/-- `containsSeq n l`: the character sequence `n` occurs contiguously
somewhere in `l`. -/
def containsSeq (needle : List Char) : List Char → Bool
  | [] => leadsWith needle []
  | c :: rest => leadsWith needle (c :: rest) || containsSeq needle rest

/-- `hay` has `needle` as a contiguous substring. -/
def strContains (hay needle : String) : Bool :=
  containsSeq needle.data hay.data


/-- JS `split('","')`: split on leftmost, non-overlapping occurrences of
the three-character separator `","`. -/
def splitQCQ : List Char → List (List Char)
  | [] => [[]]
  | '"' :: ',' :: '"' :: rest => [] :: splitQCQ rest
  | c :: rest => consFirst c (splitQCQ rest)

/-- JS `.replace(/^"|"$/g, '')`: remove one leading and one trailing
double quote (a lone `"` is removed once, not twice). -/
def stripQuote1 (l : List Char) : List Char :=
  let l1 :=
    match l with
    | c :: t => if c = '"' then t else l
    | [] => l
  match l1.reverse with
  | c :: t => if c = '"' then t.reverse else l1
  | [] => l1

/-- JS `.replace(/^\["|"\]$/g, '')`: remove a leading `["` and a trailing
`"]` (non-overlapping, as the regex scan consumes matched characters). -/
def stripBracketQuote (l : List Char) : List Char :=
  let l1 :=
    match l with
    | c :: d :: t => if c = '[' ∧ d = '"' then t else l
    | _ => l
  match l1.reverse with
  | c :: d :: t => if c = ']' ∧ d = '"' then t.reverse else l1
  | _ => l1

/-- One element of the split: strip quotes, strip bracket-quotes, trim. -/
def cleanPiece (l : List Char) : List Char :=
  trimChars (stripBracketQuote (stripQuote1 l))

/-- The regex-extraction fallback of `generateClarifyingQuestions`
(src/index.js lines 794-808): capture the bracket body, split on `","`,
clean each piece, drop empties, keep the first two.  The guard
`matches && matches[1]` also fails on an *empty* capture, since the empty
string is falsy in JS. -/
def extractQuestions (messageContent : List Char) : List (List Char) :=
  match bracketBody messageContent with
  | some body =>
    if body = [] then []
    else ((((splitQCQ body).map cleanPiece).filter (fun q => !q.isEmpty)).take 2)
  | none => []

/-- Outcome of one Draft Generator (Claude API) round trip, the only
nondeterministic input of the planner and composer functions. `err`
covers network/auth/rate-limit failures (a rejected promise). -/
inductive GenOutcome where
  | ok (text : String)
  | err

/-- The response-parsing stage of `generateClarifyingQuestions`
(src/index.js lines 784-809): strict `JSON.parse` first — an array is
cut to its first two elements, any other JSON value yields `[]` — and on
a parse *throw*, the regex-extraction fallback. -/
def parseQuestionsResponse (messageContent : String) : List Json :=
  match jsJsonParse messageContent with
  | some (.arr questions) => questions.take 2
  | some _ => []
  | none => (extractQuestions messageContent.data).map (fun cs => .str (String.mk cs))

/-- `generateClarifyingQuestions` as a function of the Draft Generator
outcome: the outer `try`/`catch` (lines 718, 810-813) turns every failure
into `[]`, so the function always returns a list and never rejects. -/
def generateClarifyingQuestions (outcome : GenOutcome) : List Json :=
  match outcome with
  | .ok messageContent => parseQuestionsResponse messageContent
  | .err => []

/-- The fixed catch-all question (src/index.js lines 245, 332, 481, 648). -/
def finalQuestion : String :=
  "Is there anything else I should know about this decision before proceeding?"

/-- What every caller stores in `session.clarifyingQuestions`: the
planner's list (`|| []` is a no-op, the planner always returns an array)
with the catch-all pushed last (src/index.js lines 477-482 and the
identical blocks at 242-246, 329-333, 645-649). -/
def buildClarifyingQuestions (outcome : GenOutcome) : List Json :=
  generateClarifyingQuestions outcome ++ [.str finalQuestion]

/-! ## Memo Composer (`generateDecisionMemo`, src/index.js lines 817-921,
and `generateDecisionMemoWithClarification`, lines 924-1045).  Each sends
a prompt to the Draft Generator and returns the response text; the
`catch` branch returns a fixed template memo instead of rethrowing. -/

/-- The fallback memo of `generateDecisionMemo` (lines 902-919). -/
def fallbackMemo : String :=
  "# Decision Memo\n\n*What is the choice you made?*\nBased on the conversation, a decision was made but I couldn't generate a specific memo due to a technical issue.\n\n*Why make this decision? What were the factors involved?*\n*Several factors were likely considered\n\n*What are the risks of making this decision?*\n*There may be various risks associated with this decision\n\n*What is the compensation / reward for taking those risks?*\n*There are likely benefits to balance the risks\n\n*What other choices did you consider?*\n*Alternative approaches were likely evaluated\n\nNote: There was an error connecting to the AI service. Please try again later."

/-- The fallback memo of `generateDecisionMemoWithClarification`
(lines 1026-1043); only the first answer sentence differs. -/
def fallbackMemoWithClarification : String :=
  "# Decision Memo\n\n*What is the choice you made?*\nBased on the conversation and clarification, a decision was made but I couldn't generate a specific memo due to a technical issue.\n\n*Why make this decision? What were the factors involved?*\n*Several factors were likely considered\n\n*What are the risks of making this decision?*\n*There may be various risks associated with this decision\n\n*What is the compensation / reward for taking those risks?*\n*There are likely benefits to balance the risks\n\n*What other choices did you consider?*\n*Alternative approaches were likely evaluated\n\nNote: There was an error connecting to the AI service. Please try again later."

/-- How a value interpolates into a JS template literal.  Exact for
strings — the only case any claim exercises; for other JSON values JS
applies `String()` (numbers are re-formatted from their float value,
arrays join their elements, objects print as `[object Object]`), which is
approximated here and never reached by a claim. -/
def jsDisplay : Json → String
  | .str s => s
  | .null => "null"
  | .bool b => if b then "true" else "false"
  | .num lexeme => lexeme
  | .arr _ => "[array]"
  | .obj _ => "[object Object]"

/-- JS `answers[i]` interpolated into a template literal: out-of-range
indexing yields `undefined`, which prints as the string `undefined`. -/
def answerAt (answers : List String) (i : Nat) : String :=
  match answers.get? i with
  | some a => a
  | none => "undefined"

/-- The loop body of lines 930-932, accumulating from question index `i`. -/
def buildClarificationAux (questions : List Json) (answers : List String) (i : Nat) : String :=
  match questions with
  | [] => ""
  | q :: qs =>
    "Question: " ++ jsDisplay q ++ "\nAnswer: " ++ answerAt answers i ++ "\n\n" ++
      buildClarificationAux qs answers (i + 1)

/-- The `Additional clarification:` block of the composition prompt
(src/index.js lines 929-932): one `Question:`/`Answer:` pair per question,
indexing `answers` positionally by the question's index. -/
def buildClarification (questions : List Json) (answers : List String) : String :=
  buildClarificationAux questions answers 0

/-- `generateDecisionMemo` as a function of the Draft Generator outcome:
the response text on success, the fixed fallback memo on failure — the
raw error is never rethrown to the caller. -/
def generateDecisionMemo (outcome : GenOutcome) : String :=
  match outcome with
  | .ok text => text
  | .err => fallbackMemo

/-- `generateDecisionMemoWithClarification` as a function of the
Draft Generator outcome.  `questions`/`answers` only enter the prompt
(via `buildClarification`), never the returned text; on failure the
clarified fallback memo is returned, never the raw error. -/
def generateDecisionMemoWithClarification (outcome : GenOutcome)
    (questions : List Json) (answers : List String) : String :=
  match outcome with
  | .ok text => text
  | .err => fallbackMemoWithClarification

/-! ## Output Formatter (`processMemoAndRespond`, src/index.js 401-430):
split an optional `#` title off the memo and render the delivery text. -/

/-- JS `.trim()` on a `String`. -/
def jsTrimStr (s : String) : String :=
  String.mk (trimChars s.data)

/-- JS `.replace(/^#\s*/, '')`: one leading `#` and any following
whitespace (the regex class `\s` is the same set `trim` removes). -/
def stripTitleMarker (l : List Char) : List Char :=
  match l with
  | '#' :: t => t.dropWhile isJsWsChar
  | _ => l

/-- JS `.replace(/:\s*$/, '')`: a trailing colon together with any
whitespace after it. -/
def stripTrailingColon (l : List Char) : List Char :=
  match l.reverse.dropWhile isJsWsChar with
  | ':' :: t => t.reverse
  | _ => l

/-- JS `split('\n')`. -/
def splitLines : List Char → List (List Char)
  | [] => [[]]
  | c :: rest =>
    if c = '\n' then [] :: splitLines rest else consFirst c (splitLines rest)

/-- JS `join('\n')`. -/
def joinLines : List (List Char) → List Char
  | [] => []
  | [l] => l
  | l :: ls => l ++ '\n' :: joinLines ls

/-- The delivery text of the second message `processMemoAndRespond`
posts: if the first line carries a `#` title marker (the JS test
`startsWith('# ') || startsWith('#')`), the marker-stripped,
colon-stripped title is bolded and the remaining lines (joined and
trimmed) follow; `memoTitle ?` falls back to the bare content when the
stripped title is empty. -/
def renderMemo (decisionMemo : String) : String :=
  match splitLines decisionMemo.data with
  | [] => decisionMemo
  | first :: rest =>
    if leadsWith ['#', ' '] first || leadsWith ['#'] first then
      let memoTitle := stripTrailingColon (stripTitleMarker first)
      let memoContent := trimChars (joinLines rest)
      if memoTitle ≠ [] then
        String.mk ('*' :: memoTitle ++ '*' :: '\n' :: '\n' :: memoContent)
      else String.mk memoContent
    else decisionMemo

/-! ## Content Ingestion -/

/-- The file-content cap (src/index.js line 615). -/
def maxLength : Nat := 25000

/-- The truncation notice appended to over-long file content
(src/index.js lines 623-624). -/
def truncationNotice : String :=
  "\n\n[Note: File was truncated as it exceeded maximum length. Only the first portion is being processed.]"

/-- The file producer of `context` (src/index.js lines 615-627): cap the
downloaded content at `maxLength` characters and append the truncation
notice.  (JS counts UTF-16 units and Lean counts characters; all
claim-relevant content is ASCII, where the two agree.)  The non-string
axios payload case is `JSON.stringify`-coerced *before* this cap, so the
cap always acts on a string as modelled here. -/
def fileContext (fileContent : String) : String :=
  if fileContent.length > maxLength
  then String.mk (fileContent.data.take maxLength) ++ truncationNotice
  else fileContent

/-- One fetched thread message, as far as ingestion inspects it.  Falsy
JS fields (absent, empty) are modelled as `none`. -/
structure ThreadMsg where
  user : Option String
  text : String
  botId : Option String
  subtype : Option String

/-- The thread-transcript producer of `context` (src/index.js lines
145-158): drop messages with a `bot_id` or a `subtype`, render the rest
as `sender: text` joined by blank lines.  No length cap is applied. -/
def threadTranscript (msgs : List ThreadMsg) : String :=
  let humanMessages := msgs.filter (fun m => m.botId.isNone && m.subtype.isNone)
  String.intercalate "\n\n" (humanMessages.map
    (fun m =>
      (match m.user with
       | some u => "<@" ++ u ++ ">"
       | none => "Unknown") ++ ": " ++ m.text))

/-- The acceptable file types of `handleFileUpload` (line 586). -/
def acceptableTypes : List String := ["text", "txt", "plain"]

/-- JS `.toLowerCase()` (ASCII case mapping; the claims only use ASCII
file types). -/
def jsToLower (s : String) : String :=
  String.mk (s.data.map Char.toLower)

/-- The type gate of `handleFileUpload` (lines 586-587). -/
def isAcceptableFiletype (filetype : String) : Bool :=
  acceptableTypes.contains (jsToLower filetype)

/-- The cancellation test of the DM message handler (line 443):
`message.text && message.text.toLowerCase().trim() === 'stop'`. -/
def isStopText (text : String) : Bool :=
  text ≠ "" && jsTrimStr (jsToLower text) = "stop"

/-! ## Session State Machine

One DM channel of the `conversations` map, as a small-step machine.
Each step is one atomic segment of a handler: handlers suspend at their
`await`s on the Draft Generator, so the code *after* such a call is a
separate `Pending` continuation, resumed by a later `resume` event — this
is exactly how the Node event loop interleaves a concurrent `"stop"`
message with an in-flight API call.  Slack `postMessage` calls are taken
to succeed except for the posting of the clarifying-questions message,
whose failure path (the `catch` blocks at src/index.js 499-524, 263-288,
350-375, 666-691) is claim-relevant and driven by the `postOk` flag.

JS aliasing is modelled precisely: a session is `(id, Session)` and a
continuation that captured the session *object* carries its `id` (writes
to a deleted or replaced session are unobservable), while code that
re-reads `conversations[channel]` by key acts on whatever session is
current, whatever its id. -/

inductive Stage where
  | started
  | askingQuestions
  | generating
deriving DecidableEq

/-- Position of a stage along `Started → AskingQuestions → Generating`. -/
def stageRank : Stage → Nat
  | .started => 0
  | .askingQuestions => 1
  | .generating => 2

/-- One session of the `conversations` map.  Fields a handler adds only
later (`clarifyingQuestions`, …) are `Option`s, `none` while unset. -/
structure Session where
  userId : String
  stage : Stage
  context : String
  participants : String
  clarifyingQuestions : Option (List Json)
  clarifyingAnswers : Option String
  rawMessages : Option (List ThreadMsg)
  originalChannel : Option String
  threadTs : Option String

/-- The session the `/decisionmemo` command stores (src/index.js 64-69). -/
def freshSession (userId : String) : Session :=
  { userId := userId, stage := .started, context := "", participants := ""
    clarifyingQuestions := none, clarifyingAnswers := none
    rawMessages := none, originalChannel := none, threadTs := none }

/-- The cancellation acknowledgment (src/index.js line 446; the leading
and middle characters are the mojibake emoji sequences present verbatim
in the source file). -/
def stopAckText : String :=
  "\uf8ff\u00fc\u00f5\u00eb I've stopped the Decision Memo process. \uf8ff\u00fc\u00ee\u00c5 Start again anytime with the `/decisionmemo` command or via the message shortcut. Please share any constructive feedback about this tool directly with @ryan."

/-- The unsupported-filetype reply (src/index.js line 590). -/
def fileRejectText : String :=
  "I can only process text (.txt) files. Please upload a text file or paste your context directly."

/-- The remediation message posted when the thread fetch failed
(src/index.js lines 182-186). -/
def remediationText (channelId : String) : String :=
  ":warning: Thanks for using the Decision Memo tool. Before we can proceed, *I need to be added to the <#" ++ channelId ++ "> channel so I can access thread messages.*\n\n" ++
  "*To add me to the channel:*\n" ++
  "1. Go to <#" ++ channelId ++ ">\n" ++
  "2. Type and send: `/invite @Decision Memo`\n" ++
  "3. Launch the message shortcut again in your thread\n\n"

/-- Messages posted to the user, tagged by the `postMessage` call site
that emits them; the ones a claim quotes carry their text. -/
inductive OutMsg where
  | commandIntro
  | shortcutThreadNotify
  | shortcutIntro
  | capturedPreview
  | analyzingContext
  | analyzingFile
  | analyzingMessage
  | questionsMsg (qs : List Json)
  | troubleFallback
  | thanksGenerating
  | memoIntro
  | memoDelivery (text : String)
  | closingTip
  | stopAck (text : String)
  | memoError
  | fileReject (text : String)
  | fileMissingScope
  | fileGenericError
  | remediation (text : String)
  | shortcutError

/-- Suspended continuations: the code after an `await` of the Draft
Generator.  `dmPlanner` captured the session object (lines 474-498 /
641-665), so it carries the session id; the shortcut handler instead
re-reads `conversations[dmChannelId]` by key (lines 242-246).
`clarifiedCompose` carries the question list and the wrapped single
answer captured at call time (lines 542-547). -/
inductive Pending where
  | dmPlanner (sid : Nat)
  | shortcutPlanner
  | fallbackCompose
  | clarifiedCompose (questions : List Json) (answers : List String)

/-- Outcome of the file download (`files.info` + axios GET,
src/index.js 598-610): content, a missing-scope error, or another error. -/
inductive DlResult where
  | ok (content : String)
  | errScope
  | errOther

/-- What the shortcut invocation found: a lone message, a thread whose
replies were fetched, or a thread whose reply fetch failed
(src/index.js 125-164). -/
inductive ShortcutFetch where
  | notThread (msgUser msgText : String)
  | thread (msgUser msgText : String) (msgs : List ThreadMsg)
  | threadFailed (msgUser msgText : String)

/-- Inbound events of one channel, including the resumption of an
in-flight Draft Generator call (its outcome and whether the follow-up
questions post succeeds are the event's nondeterministic payload). -/
inductive CEvent where
  | command (userId : String)
  | shortcut (userId originChannel threadTs : String) (fetch : ShortcutFetch)
  | dmMsg (text : String) (file : Option (String × DlResult))
  | resume (outcome : GenOutcome) (postOk : Bool)

/-- Machine state: the (single-channel) session store, the queue of
suspended continuations, the log of posted messages, and a count of
Draft Generator invocations started so far. -/
structure MState where
  nextId : Nat
  store : Option (Nat × Session)
  pending : List Pending
  posted : List OutMsg
  draftCalls : Nat

def initState : MState :=
  { nextId := 0, store := none, pending := [], posted := [], draftCalls := 0 }

/-- The three messages `processMemoAndRespond` posts (src/index.js
401-430): intro, the rendered memo, the closing tip. -/
def processMemoPosts (decisionMemo : String) : List OutMsg :=
  [.memoIntro, .memoDelivery (renderMemo decisionMemo), .closingTip]

/-- `/decisionmemo` (src/index.js 42-85): unconditionally store a fresh
`started` session for the DM channel — replacing any existing one — and
prompt for context. -/
def stepCommand (st : MState) (userId : String) : MState :=
  { st with
    nextId := st.nextId + 1
    store := some (st.nextId, freshSession userId)
    posted := st.posted ++ [.commandIntro] }

/-- The `context` the shortcut handler ends up with (src/index.js
125-159): the `sender: text` of the invoking message, replaced by the
filtered transcript only when the reply fetch succeeded and returned a
non-empty list. -/
def shortcutContext (fetch : ShortcutFetch) : String :=
  match fetch with
  | .notThread u t => "<@" ++ u ++ ">: " ++ t
  | .threadFailed u t => "<@" ++ u ++ ">: " ++ t
  | .thread u t msgs =>
    if msgs.isEmpty then "<@" ++ u ++ ">: " ++ t else threadTranscript msgs

/-- `rawMessages` as stored by the shortcut handler (lines 125, 152). -/
def shortcutRawMessages (fetch : ShortcutFetch) : List ThreadMsg :=
  match fetch with
  | .notThread u t => [⟨some u, t, none, none⟩]
  | .threadFailed u t => [⟨some u, t, none, none⟩]
  | .thread u t msgs =>
    if msgs.isEmpty then [⟨some u, t, none, none⟩]
    else msgs.filter (fun m => m.botId.isNone && m.subtype.isNone)

/-- The session the shortcut handler stores (src/index.js 167-175). -/
def shortcutSession (userId origin threadTs : String) (fetch : ShortcutFetch) : Session :=
  { userId := userId, stage := .askingQuestions, context := shortcutContext fetch
    participants := "", clarifyingQuestions := none, clarifyingAnswers := none
    rawMessages := some (shortcutRawMessages fetch)
    originalChannel := some origin, threadTs := some threadTs }

/-- The message shortcut (src/index.js 88-398).  A failed thread fetch
posts the `/invite` remediation and deletes the just-created session
before any Draft Generator call (lines 178-196); otherwise the planner
is invoked immediately and the handler suspends at its `await`. -/
def stepShortcut (st : MState) (userId origin threadTs : String)
    (fetch : ShortcutFetch) : MState :=
  match fetch with
  | .threadFailed _ _ =>
    { st with
      nextId := st.nextId + 1
      store := none
      posted := st.posted ++ [.shortcutThreadNotify, .remediation (remediationText origin)] }
  | .thread _ _ _ =>
    { st with
      nextId := st.nextId + 1
      store := some (st.nextId, shortcutSession userId origin threadTs fetch)
      posted := st.posted ++ [.shortcutThreadNotify, .shortcutIntro, .capturedPreview]
      draftCalls := st.draftCalls + 1
      pending := st.pending ++ [.shortcutPlanner] }
  | .notThread _ _ =>
    { st with
      nextId := st.nextId + 1
      store := some (st.nextId, shortcutSession userId origin threadTs fetch)
      posted := st.posted ++ [.shortcutThreadNotify, .shortcutIntro, .capturedPreview, .analyzingMessage]
      draftCalls := st.draftCalls + 1
      pending := st.pending ++ [.shortcutPlanner] }

/-- A DM message (src/index.js 433-578) up to the first Draft Generator
`await` of whichever branch applies.  No session for the channel means
the handler returns at once; a `stop` text acknowledges and deletes in
any stage; otherwise the branch is chosen by the session's stage.  In
`askingQuestions`, a session that never received its questions (the
planner is still in flight) makes `generateDecisionMemoWithClarification`
throw on `questions.length`, so the `catch` posts the generic memo error
and the handler's trailing `delete` removes the session without any
Draft Generator call. -/
def stepDm (st : MState) (text : String) (file : Option (String × DlResult)) : MState :=
  match st.store with
  | none => st
  | some (sid, s) =>
    if isStopText text then
      { st with posted := st.posted ++ [.stopAck stopAckText], store := none }
    else
      match s.stage with
      | .started =>
        (match file with
         | some (filetype, dl) =>
           if !isAcceptableFiletype filetype then
             { st with posted := st.posted ++ [.fileReject fileRejectText] }
           else
             (match dl with
              | .ok content =>
                { st with
                  store := some (sid, { s with context := fileContext content, stage := .askingQuestions })
                  posted := st.posted ++ [.analyzingFile]
                  draftCalls := st.draftCalls + 1
                  pending := st.pending ++ [.dmPlanner sid] }
              | .errScope => { st with posted := st.posted ++ [.fileMissingScope] }
              | .errOther => { st with posted := st.posted ++ [.fileGenericError] })
         | none =>
           { st with
             store := some (sid, { s with context := text, stage := .askingQuestions })
             posted := st.posted ++ [.analyzingContext]
             draftCalls := st.draftCalls + 1
             pending := st.pending ++ [.dmPlanner sid] })
      | .askingQuestions =>
        (match s.clarifyingQuestions with
         | some qs =>
           { st with
             store := some (sid, { s with clarifyingAnswers := some text, stage := .generating })
             posted := st.posted ++ [.thanksGenerating]
             draftCalls := st.draftCalls + 1
             pending := st.pending ++ [.clarifiedCompose qs [text]] }
         | none =>
           { st with
             store := none
             posted := st.posted ++ [.thanksGenerating, .memoError] })
      | .generating => st

/-- Resumption of the oldest in-flight Draft Generator call (the code
after its `await`).  `postOk` tells whether the posting of the
questions message succeeds; its failure runs the caller's `catch`, which
degrades to composing a memo directly (src/index.js 499-524 / 263-288 /
350-375 / 666-691) — note that path posts the memo *without* re-checking
that the session still exists, unlike the clarified path (line 550),
and then deletes whatever session currently occupies the channel key. -/
def stepResume (st : MState) (outcome : GenOutcome) (postOk : Bool) : MState :=
  match st.pending with
  | [] => st
  | k :: rest =>
    match k with
    | .dmPlanner sid =>
      let qs := buildClarifyingQuestions outcome
      let store1 :=
        match st.store with
        | some (sid2, s) =>
          if sid2 = sid then some (sid2, { s with clarifyingQuestions := some qs })
          else st.store
        | none => none
      if postOk then
        { st with
          store := store1
          pending := rest
          posted := st.posted ++ [.questionsMsg qs] }
      else
        { st with
          store := store1
          pending := rest ++ [.fallbackCompose]
          posted := st.posted ++ [.troubleFallback]
          draftCalls := st.draftCalls + 1 }
    | .shortcutPlanner =>
      (match st.store with
       | some (sid2, s) =>
         let qs := buildClarifyingQuestions outcome
         if postOk then
           { st with
             store := some (sid2, { s with clarifyingQuestions := some qs })
             pending := rest
             posted := st.posted ++ [.questionsMsg qs] }
         else
           { st with
             store := some (sid2, { s with clarifyingQuestions := some qs })
             pending := rest ++ [.fallbackCompose]
             posted := st.posted ++ [.troubleFallback]
             draftCalls := st.draftCalls + 1 }
       | none =>
         -- `conversations[dmChannelId].clarifyingQuestions = …` throws a
         -- TypeError on a deleted session; the outer catch (line 377)
         -- posts the thread warning and the handler ends.
         { st with pending := rest, posted := st.posted ++ [.shortcutError] })
    | .fallbackCompose =>
      { st with
        pending := rest
        store := none
        posted := st.posted ++ processMemoPosts (generateDecisionMemo outcome) }
    | .clarifiedCompose qs ans =>
      (match st.store with
       | none => { st with pending := rest }
       | some _ =>
         { st with
           pending := rest
           store := none
           posted := st.posted ++
             processMemoPosts (generateDecisionMemoWithClarification outcome qs ans) })

/-- One machine step per inbound event. -/
def cstep (st : MState) (ev : CEvent) : MState :=
  match ev with
  | .command userId => stepCommand st userId
  | .shortcut userId origin threadTs fetch => stepShortcut st userId origin threadTs fetch
  | .dmMsg text file => stepDm st text file
  | .resume outcome postOk => stepResume st outcome postOk

/-- Run a whole event sequence. -/
def runTrace (st : MState) (evs : List CEvent) : MState :=
  evs.foldl cstep st

/-- Events that replace the channel's session with a newly created one. -/
def isInvocation : CEvent → Bool
  | .command _ => true
  | .shortcut _ _ _ _ => true
  | _ => false

/-- The stage currently observable on the channel. -/
def stageOf (st : MState) : Option Stage :=
  match st.store with
  | some (_, s) => some s.stage
  | none => none

/-- The `context` of the session currently on the channel, if any. -/
def contextOf (st : MState) : Option String :=
  match st.store with
  | some (_, s) => some s.context
  | none => none

/-- The five fixed section headings of every decision memo. -/
def sectionHeadings : List String :=
  ["*What is the choice you made?*",
   "*Why make this decision? What were the factors involved?*",
   "*What are the risks of making this decision?*",
   "*What is the compensation / reward for taking those risks?*",
   "*What other choices did you consider?*"]

/-- The failure note both fallback memos end with. -/
def failureNote : String :=
  "Note: There was an error connecting to the AI service. Please try again later."

/-- Characters allowed in a question string for the strict-JSON/regex
round trip: no quote, no backslash, no raw control character. -/
def questionCharsOk (l : List Char) : Prop :=
  ∀ c ∈ l, c ≠ '"' ∧ c ≠ '\\' ∧ 32 ≤ c.toNat

instance (l : List Char) : Decidable (questionCharsOk l) :=
  inferInstanceAs (Decidable (∀ c ∈ l, _ ∧ _ ∧ _))

/-- The literal two-question JSON array `["q1","q2"]`. -/
def bareArrayStr (q1 q2 : String) : String :=
  "[\"" ++ q1 ++ "\",\"" ++ q2 ++ "\"]"

/-- The characters of `["q1","q2"]`. -/
def bareChars (q1 q2 : List Char) : List Char :=
  '[' :: '"' :: (q1 ++ ('"' :: ',' :: '"' :: (q2 ++ ['"', ']'])))

/-- The characters the bracket regex captures from `["q1","q2"]`. -/
def bodyChars (q1 q2 : List Char) : List Char :=
  '"' :: (q1 ++ ('"' :: ',' :: '"' :: (q2 ++ ['"'])))

/-- `Question:`/`Answer:` blocks in which every answer is the literal
string `undefined` (what positional pairing against an exhausted answers
array produces). -/
def undefinedPairs : List Json → String
  | [] => ""
  | q :: rest =>
    "Question: " ++ jsDisplay q ++ "\nAnswer: " ++ "undefined" ++ "\n\n" ++ undefinedPairs rest

/-- A `started` session, as used by concrete witnesses. -/
def wSession : Session := freshSession "U1"

/-- A machine state holding one `started` session. -/
def wState : MState := { initState with nextId := 1, store := some (0, wSession) }

/-- An `askingQuestions` session whose questions were posted. -/
def wSessionAsking : Session :=
  { wSession with stage := .askingQuestions, clarifyingQuestions := some [.str finalQuestion] }

/-- A machine state holding one `askingQuestions` session. -/
def wStateAsking : MState := { initState with nextId := 1, store := some (0, wSessionAsking) }

/-- A machine state with a clarified composition call in flight. -/
def wStateClarify : MState :=
  { wStateAsking with pending := [.clarifiedCompose [.str finalQuestion] ["a"]] }

/-! # Theorems -/

theorem leadsWith_append (n s t : List Char) (h : leadsWith n s = true) :
    leadsWith n (s ++ t) = true := by
  induction n generalizing s with
  | nil => simp [leadsWith]
  | cons a as ih =>
    cases s with
    | nil => simp [leadsWith] at h
    | cons b bs =>
      simp only [leadsWith, Bool.and_eq_true] at h
      simp only [List.cons_append, leadsWith, Bool.and_eq_true]
      exact ⟨h.1, ih bs h.2⟩

theorem containsSeq_nil_needle (l : List Char) : containsSeq [] l = true := by
  cases l <;> simp [containsSeq, leadsWith]

theorem containsSeq_append_left (n xs ys : List Char) (h : containsSeq n xs = true) :
    containsSeq n (xs ++ ys) = true := by
  induction xs with
  | nil =>
    cases n with
    | nil => simpa using containsSeq_nil_needle ys
    | cons a as => simp [containsSeq, leadsWith] at h
  | cons c cs ih =>
    simp only [containsSeq, Bool.or_eq_true] at h
    simp only [List.cons_append, containsSeq, Bool.or_eq_true]
    cases h with
    | inl h => exact Or.inl (by simpa using leadsWith_append n (c :: cs) ys h)
    | inr h => exact Or.inr (ih h)

theorem containsSeq_append_right (n xs ys : List Char) (h : containsSeq n ys = true) :
    containsSeq n (xs ++ ys) = true := by
  induction xs with
  | nil => simpa using h
  | cons c cs ih =>
    simp only [List.cons_append, containsSeq, Bool.or_eq_true]
    exact Or.inr ih

/-- C3: for every Draft Generator failure during memo composition, both
composition entry points (`generateDecisionMemo` and
`generateDecisionMemoWithClarification`) return a non-empty string
containing all five fixed section headings plus the note that generation
failed, and — being total functions of the outcome — never propagate the
raw error to the caller. -/
theorem composer_failure_fallback_c3 :
    (∀ questions answers,
       generateDecisionMemoWithClarification .err questions answers =
         fallbackMemoWithClarification) ∧
    generateDecisionMemo .err = fallbackMemo ∧
    (fallbackMemo ≠ "" ∧ fallbackMemoWithClarification ≠ "") ∧
    (∀ hd ∈ sectionHeadings,
       strContains fallbackMemo hd = true ∧
       strContains fallbackMemoWithClarification hd = true) ∧
    (strContains fallbackMemo failureNote = true ∧
     strContains fallbackMemoWithClarification failureNote = true) :=
  ⟨fun _ _ => rfl, rfl, by decide, by decide, by decide⟩

/-- C9 (counterexample): with the questions `["q1","q2"]` and the
reference flow's one-element answers array `["agg"]`, the constructed
clarification block pairs `q2` with the literal string `undefined`, not
with the aggregate answer — so the single aggregate answer is *not*
treated as the answer to the entire question set in the prompt. -/
theorem clarification_pairing_c9_counterexample :
    buildClarification [.str "q1", .str "q2"] ["agg"] =
      "Question: q1\nAnswer: agg\n\nQuestion: q2\nAnswer: undefined\n\n" ∧
    buildClarification [.str "q1", .str "q2"] ["agg"] ≠
      "Question: q1\nAnswer: agg\n\nQuestion: q2\nAnswer: agg\n\n" := by
  constructor
  · rfl
  · decide

theorem buildClarificationAux_out_of_range (qs : List Json) (agg : String) (m : Nat) :
    buildClarificationAux qs [agg] (m + 1) = undefinedPairs qs := by
  induction qs generalizing m with
  | nil => rfl
  | cons q rest ih =>
    simp only [buildClarificationAux, undefinedPairs, answerAt, List.get?_cons_succ,
      List.get?_nil, ih]

/-- C9 (amended): answers are paired positionally with questions; an
index beyond the answers sequence pairs with the string `undefined`.  In
the reference flow — a non-empty question list against the one-element
aggregate array — the aggregate is the answer of the *first* question
only, and every later question (including the catch-all) is paired with
`undefined` in the constructed prompt. -/
theorem clarification_pairing_c9_amended (q : Json) (qs : List Json) (agg : String) :
    buildClarification (q :: qs) [agg] =
      "Question: " ++ jsDisplay q ++ "\nAnswer: " ++ agg ++ "\n\n" ++ undefinedPairs qs := by
  show buildClarificationAux (q :: qs) [agg] 0 = _
  simp only [buildClarificationAux, answerAt, List.get?_cons_zero,
    buildClarificationAux_out_of_range]

/-- C6: a file upload in stage `Started` whose filetype is not an
accepted plain-text type posts the paste-it-directly reply and changes
*nothing* else: the session (stage, context, every field), the pending
queue and the Draft Generator call count are untouched, so the user can
retry. -/
theorem file_reject_c6 (st : MState) (sid : Nat) (s : Session)
    (text filetype : String) (dl : DlResult)
    (hstore : st.store = some (sid, s)) (hstage : s.stage = .started)
    (hstop : isStopText text = false) (hft : isAcceptableFiletype filetype = false) :
    cstep st (.dmMsg text (some (filetype, dl))) =
      { st with posted := st.posted ++ [.fileReject fileRejectText] } ∧
    strContains fileRejectText "paste your context directly" = true := by
  constructor
  · simp [cstep, stepDm, hstore, hstop, hstage, hft]
  · decide

theorem file_reject_c6_witness :
    (cstep wState (.dmMsg "" (some ("pdf", .errOther))) =
      { wState with posted := wState.posted ++ [.fileReject fileRejectText] }) ∧
    strContains fileRejectText "paste your context directly" = true :=
  file_reject_c6 wState 0 wSession "" "pdf" .errOther rfl rfl (by decide) (by decide)

/-- C7: a shortcut invocation whose thread-reply fetch failed with a
permission error ends with no session on the channel, posts the
remediation message (which instructs inviting the bot via `/invite`),
and makes no Question Planner / Draft Generator call — the call counter,
the pending queue, and hence the set of asked questions are unchanged. -/
theorem thread_failure_c7 (st : MState) (userId origin threadTs msgUser msgText : String) :
    cstep st (.shortcut userId origin threadTs (.threadFailed msgUser msgText)) =
      { st with
        nextId := st.nextId + 1
        store := none
        posted := st.posted ++ [.shortcutThreadNotify, .remediation (remediationText origin)] } ∧
    strContains (remediationText origin) "/invite @Decision Memo" = true := by
  constructor
  · rfl
  · show containsSeq _ _ = true
    simp only [remediationText, String.data_append]
    apply containsSeq_append_left
    apply containsSeq_append_right
    decide

/-- C1: when the Draft Generator response strictly parses as a JSON array
of `n` strings, the stored `clarifyingQuestions` list has length
`min 2 n + 1`, is never longer than `3`, and always ends with the fixed
catch-all question. -/
theorem clarifying_questions_c1 (resp : String) (qs : List Json)
    (hparse : jsJsonParse resp = some (.arr qs))
    (hstr : ∀ q ∈ qs, ∃ s, q = Json.str s) :
    (buildClarifyingQuestions (.ok resp)).length = min 2 qs.length + 1 ∧
    (buildClarifyingQuestions (.ok resp)).length ≤ 3 ∧
    (buildClarifyingQuestions (.ok resp)).getLast? = some (.str finalQuestion) := by
  have h1 : buildClarifyingQuestions (.ok resp) = qs.take 2 ++ [.str finalQuestion] := by
    simp [buildClarifyingQuestions, generateClarifyingQuestions, parseQuestionsResponse, hparse]
  refine ⟨?_, ?_, ?_⟩
  · simp [h1, List.length_take]
  · simp only [h1, List.length_append, List.length_take, List.length_cons, List.length_nil]
    omega
  · simp [h1]

theorem clarifying_questions_c1_witness :
    (buildClarifyingQuestions (.ok "[\"a\",\"b\",\"c\"]")).length =
      min 2 ([Json.str "a", Json.str "b", Json.str "c"] : List Json).length + 1 ∧
    (buildClarifyingQuestions (.ok "[\"a\",\"b\",\"c\"]")).length ≤ 3 ∧
    (buildClarifyingQuestions (.ok "[\"a\",\"b\",\"c\"]")).getLast? =
      some (.str finalQuestion) :=
  clarifying_questions_c1 "[\"a\",\"b\",\"c\"]" [.str "a", .str "b", .str "c"] rfl
    (by
      intro q hq
      simp only [List.mem_cons, List.not_mem_nil, or_false] at hq
      rcases hq with rfl | rfl | rfl
      · exact ⟨"a", rfl⟩
      · exact ⟨"b", rfl⟩
      · exact ⟨"c", rfl⟩)

theorem dropWhile_replicate_head_false (p : Char → Bool) (c : Char) (n : Nat)
    (h : p c = false) :
    List.dropWhile p (List.replicate n c) = List.replicate n c := by
  cases n with
  | zero => rfl
  | succ m => simp [List.replicate_succ, List.dropWhile_cons, h]

theorem trimChars_replicate (c : Char) (n : Nat) (h : isJsWsChar c = false) :
    trimChars (List.replicate n c) = List.replicate n c := by
  simp [trimChars, dropWhile_replicate_head_false _ _ _ h, List.reverse_replicate]

theorem replicate_a_ne_stop : String.mk (List.replicate 25001 'a') ≠ "stop" := by
  intro h
  have h' : List.replicate 25001 'a' = "stop".data := congrArg String.data h
  have h'' := congrArg List.length h'
  rw [List.length_replicate] at h''
  exact absurd h'' (by decide)

theorem isStopText_big_a : isStopText (String.mk (List.replicate 25001 'a')) = false := by
  have h1 : jsToLower (String.mk (List.replicate 25001 'a')) =
      String.mk (List.replicate 25001 'a') := by
    show String.mk ((List.replicate 25001 'a').map Char.toLower) = _
    rw [List.map_replicate]
    rfl
  have h2 : jsTrimStr (String.mk (List.replicate 25001 'a')) =
      String.mk (List.replicate 25001 'a') := by
    simp only [jsTrimStr]
    show String.mk (trimChars (List.replicate 25001 'a')) = _
    rw [trimChars_replicate _ _ (by decide)]
  simp only [isStopText, h1, h2]
  rw [decide_eq_false replicate_a_ne_stop, Bool.and_false]

/-- C4 (counterexample): the direct-text producer does *not* cap the
context at 25,000 characters — a 25,001-character pasted message is
stored verbatim as the session's `context`, with no truncation and no
truncation notice. -/
theorem context_cap_c4_counterexample :
    contextOf (cstep wState (.dmMsg (String.mk (List.replicate 25001 'a')) none)) =
      some (String.mk (List.replicate 25001 'a')) ∧
    maxLength < (String.mk (List.replicate 25001 'a')).length := by
  constructor
  · simp only [cstep, stepDm, wState, wSession, freshSession, initState,
      isStopText_big_a, Bool.false_eq_true, if_false, contextOf]
  · show maxLength < (List.replicate 25001 'a').length
    rw [List.length_replicate]
    decide

/-- C4 (amended): only the *file* producer caps the context: content of
at most 25,000 characters passes unchanged, longer content is cut at
25,000 characters and the truncation notice is appended.  The
direct-text producer stores the message verbatim (uncapped) and the
thread-transcript producer joins messages verbatim (uncapped). -/
theorem context_cap_c4_amended (sShort sLong text u : String) (st : MState)
    (sid : Nat) (sess : Session)
    (h1 : sShort.length ≤ maxLength) (h2 : maxLength < sLong.length)
    (h3 : st.store = some (sid, sess)) (h4 : sess.stage = .started)
    (h5 : isStopText text = false) :
    fileContext sShort = sShort ∧
    fileContext sLong = String.mk (sLong.data.take maxLength) ++ truncationNotice ∧
    (fileContext sLong).length = maxLength + truncationNotice.length ∧
    contextOf (cstep st (.dmMsg text none)) = some text ∧
    threadTranscript [⟨some u, text, none, none⟩] = "<@" ++ u ++ ">" ++ ": " ++ text := by
  have hlen : sLong.data.length = sLong.length := rfl
  refine ⟨?_, ?_, ?_, ?_, ?_⟩
  · simp [fileContext, Nat.not_lt.mpr h1]
  · simp [fileContext, h2]
  · have hfc : fileContext sLong = String.mk (sLong.data.take maxLength) ++ truncationNotice := by
      simp [fileContext, h2]
    rw [hfc]
    show ((sLong.data.take maxLength) ++ truncationNotice.data).length =
      maxLength + truncationNotice.length
    rw [List.length_append, List.length_take]
    have hle : maxLength ≤ sLong.data.length := le_of_lt h2
    rw [Nat.min_eq_left hle]
    rfl
  · simp [cstep, stepDm, h3, h5, h4, contextOf]
  · rfl

theorem context_cap_c4_witness :
    (fileContext "x" = "x" ∧
     fileContext (String.mk (List.replicate 25001 'b')) =
       String.mk ((String.mk (List.replicate 25001 'b')).data.take maxLength) ++ truncationNotice ∧
     (fileContext (String.mk (List.replicate 25001 'b'))).length =
       maxLength + truncationNotice.length ∧
     contextOf (cstep wState (.dmMsg "ctx" none)) = some "ctx" ∧
     threadTranscript [⟨some "U9", "ctx", none, none⟩] = "<@" ++ "U9" ++ ">" ++ ": " ++ "ctx") :=
  context_cap_c4_amended "x" (String.mk (List.replicate 25001 'b')) "ctx" "U9" wState 0 wSession
    (by decide)
    (by
      show maxLength < (List.replicate 25001 'b').length
      rw [List.length_replicate]
      decide)
    rfl rfl (by decide)

/-- C5 (counterexample): a `"stop"` DM *does* delete the session and post
the acknowledgment, but it does not prevent every in-flight Draft
Generator call from producing a memo.  In the degraded path — posting
the clarifying questions failed, so the handler composed a memo directly
without re-checking the session — the memo is still delivered to the
channel after the stop: the trace below posts the stop acknowledgment at
log index 3 and the memo at indices 4-6, after the session was deleted. -/
theorem stop_memo_c5_counterexample :
    (runTrace initState
      [.command "U1", .dmMsg "ctx" none, .resume (.ok "[]") false,
       .dmMsg "STOP " none]).store = none ∧
    (runTrace initState
      [.command "U1", .dmMsg "ctx" none, .resume (.ok "[]") false,
       .dmMsg "STOP " none, .resume (.ok "MEMO") true]).posted =
      [.commandIntro, .analyzingContext, .troubleFallback, .stopAck stopAckText,
       .memoIntro, .memoDelivery "MEMO", .closingTip] := by
  constructor
  · rfl
  · rfl

/-- C5 (amended): a DM whose text, lowercased and trimmed, equals `stop`
deletes the session and posts the acknowledgment in any stage; and in
the clarified-composition flow the post-await code re-checks the session
store, so when the stop was processed while that Draft Generator call
was in flight, its resumption posts nothing at all — no memo reaches the
channel.  (The degraded questions-post-failure path lacks this re-check;
see the counterexample.) -/
theorem stop_memo_c5_amended (st : MState) (sid : Nat) (s : Session) (text : String)
    (qs : List Json) (ans : List String) (rest : List Pending)
    (outcome : GenOutcome) (postOk : Bool)
    (h1 : st.store = some (sid, s)) (h2 : isStopText text = true)
    (h3 : st.pending = .clarifiedCompose qs ans :: rest) :
    (cstep st (.dmMsg text none)).store = none ∧
    (cstep st (.dmMsg text none)).posted = st.posted ++ [.stopAck stopAckText] ∧
    (cstep (cstep st (.dmMsg text none)) (.resume outcome postOk)).posted =
      st.posted ++ [.stopAck stopAckText] ∧
    (cstep (cstep st (.dmMsg text none)) (.resume outcome postOk)).store = none := by
  have hstep : cstep st (.dmMsg text none) =
      { st with posted := st.posted ++ [.stopAck stopAckText], store := none } := by
    simp [cstep, stepDm, h1, h2]
  refine ⟨by simp [hstep], by simp [hstep], ?_, ?_⟩
  · rw [hstep]
    simp [cstep, stepResume, h3]
  · rw [hstep]
    simp [cstep, stepResume, h3]

theorem stop_memo_c5_witness :
    ((cstep wStateClarify (.dmMsg "STOP " none)).store = none ∧
     (cstep wStateClarify (.dmMsg "STOP " none)).posted =
       wStateClarify.posted ++ [.stopAck stopAckText] ∧
     (cstep (cstep wStateClarify (.dmMsg "STOP " none)) (.resume .err true)).posted =
       wStateClarify.posted ++ [.stopAck stopAckText] ∧
     (cstep (cstep wStateClarify (.dmMsg "STOP " none)) (.resume .err true)).store = none) :=
  stop_memo_c5_amended wStateClarify 0 wSessionAsking "STOP "
    [.str finalQuestion] ["a"] [] .err true rfl (by decide) rfl

/-- C8 (counterexample): re-invoking `/decisionmemo` while a session is
in `AskingQuestions` overwrites it with a fresh `Started` session, so
the stage observed on the channel moves backward. -/
theorem stage_monotone_c8_counterexample :
    stageOf (runTrace initState [.command "U1", .dmMsg "ctx" none]) =
      some .askingQuestions ∧
    stageOf (runTrace initState [.command "U1", .dmMsg "ctx" none, .command "U1"]) =
      some .started ∧
    stageRank .started < stageRank .askingQuestions := by
  refine ⟨rfl, rfl, by decide⟩

/-- C8 (amended): within one session's lifetime the stage only advances:
no DM-message or call-resumption event ever lowers the stage of the
session it acts on.  Only a fresh `/decisionmemo` command or shortcut
invocation — which *replaces* the channel's session with a newly created
one — can make the observed stage move backward. -/
theorem stage_monotone_c8_amended (st : MState) (ev : CEvent) (sid : Nat)
    (s s2 : Session)
    (hev : isInvocation ev = false)
    (h1 : st.store = some (sid, s))
    (h2 : (cstep st ev).store = some (sid, s2)) :
    stageRank s.stage ≤ stageRank s2.stage := by
  cases ev with
  | command u => simp [isInvocation] at hev
  | shortcut u o t f => simp [isInvocation] at hev
  | dmMsg text file =>
    simp only [cstep, stepDm, h1] at h2
    by_cases hstop : isStopText text
    · simp [hstop] at h2
    · simp only [hstop, Bool.false_eq_true, if_false] at h2
      cases hstage : s.stage with
      | started =>
        rw [hstage] at h2
        cases file with
        | none =>
          simp only [Option.some.injEq, Prod.mk.injEq, true_and] at h2
          rw [← h2]
          simp [stageRank]
        | some p =>
          obtain ⟨filetype, dl⟩ := p
          by_cases hft : isAcceptableFiletype filetype
          · simp only [hft, Bool.not_true, Bool.false_eq_true, if_false] at h2
            cases dl with
            | ok content =>
              simp only [Option.some.injEq, Prod.mk.injEq, true_and] at h2
              rw [← h2]
              simp [stageRank]
            | errScope =>
              simp only [Option.some.injEq, Prod.mk.injEq, true_and] at h2
              rw [← h2, hstage]
            | errOther =>
              simp only [Option.some.injEq, Prod.mk.injEq, true_and] at h2
              rw [← h2, hstage]
          · simp only [hft, Bool.not_false, if_true, Option.some.injEq, Prod.mk.injEq,
              true_and] at h2
            rw [← h2, hstage]
      | askingQuestions =>
        rw [hstage] at h2
        cases hq : s.clarifyingQuestions with
        | some qs =>
          rw [hq] at h2
          simp only [Option.some.injEq, Prod.mk.injEq, true_and] at h2
          rw [← h2]
          simp [stageRank]
        | none =>
          rw [hq] at h2
          simp at h2
      | generating =>
        rw [hstage] at h2
        rw [h1] at h2
        simp only [Option.some.injEq, Prod.mk.injEq, true_and] at h2
        rw [← h2, hstage]
  | resume outcome postOk =>
    simp only [cstep, stepResume] at h2
    cases hp : st.pending with
    | nil =>
      rw [hp] at h2
      rw [h1] at h2
      simp only [Option.some.injEq, Prod.mk.injEq, true_and] at h2
      rw [← h2]
    | cons k rest =>
      rw [hp] at h2
      cases k with
      | dmPlanner sid2 =>
        simp only [h1] at h2
        by_cases hid : sid = sid2
        · simp only [hid, if_pos rfl] at h2
          cases postOk <;>
            simp only [Bool.false_eq_true, if_false, if_true, Option.some.injEq,
              Prod.mk.injEq, true_and] at h2 <;>
          · rw [← h2]
        · simp only [if_neg hid] at h2
          cases postOk <;>
            simp only [Bool.false_eq_true, if_false, if_true, Option.some.injEq,
              Prod.mk.injEq, true_and] at h2 <;>
          · rw [← h2]
      | shortcutPlanner =>
        simp only [h1] at h2
        cases postOk <;>
          simp only [Bool.false_eq_true, if_false, if_true, Option.some.injEq,
            Prod.mk.injEq, true_and] at h2 <;>
        · rw [← h2]
      | fallbackCompose =>
        simp at h2
      | clarifiedCompose qs ans =>
        simp only [h1] at h2
        simp at h2

theorem stage_monotone_c8_witness :
    stageRank wSessionAsking.stage ≤
      stageRank ({ wSessionAsking with clarifyingAnswers := some "hi", stage := .generating }).stage :=
  stage_monotone_c8_amended wStateAsking (.dmMsg "hi" none) 0 wSessionAsking
    { wSessionAsking with clarifyingAnswers := some "hi", stage := .generating }
    rfl rfl rfl

/-- C10 (counterexample): the callers' catch branches are reachable even
though `generateClarifyingQuestions` never rejects — the enclosing `try`
also covers posting the questions message.  In the trace below the
planner *succeeds* (it returns one question), yet the posting failure
executes the catch: the degraded `troubleFallback` message is posted and
a direct memo composition is put in flight — the "planner hard failure"
row runs. -/
theorem planner_catch_c10_counterexample :
    generateClarifyingQuestions (.ok "[\"Q\"]") = [.str "Q"] ∧
    (runTrace initState
      [.command "U1", .dmMsg "ctx" none, .resume (.ok "[\"Q\"]") false]).posted =
      [.commandIntro, .analyzingContext, .troubleFallback] ∧
    (runTrace initState
      [.command "U1", .dmMsg "ctx" none, .resume (.ok "[\"Q\"]") false]).pending =
      [.fallbackCompose] := by
  refine ⟨rfl, rfl, rfl⟩

/-- C10 (amended): `generateClarifyingQuestions` itself never rejects:
for every Draft Generator outcome it returns a list of at most two
questions, and every failure yields `[]`.  The callers' catch branches
are nonetheless reachable, because their `try` blocks also cover posting
the questions message: a posting failure after a *successful* planner
run executes the direct memo-composition fallback. -/
theorem planner_total_c10_amended :
    (∀ outcome, (generateClarifyingQuestions outcome).length ≤ 2) ∧
    generateClarifyingQuestions .err = [] ∧
    (runTrace initState
      [.command "U1", .dmMsg "ctx" none, .resume (.ok "[\"Q\"]") false]).pending =
      [.fallbackCompose] := by
  refine ⟨?_, rfl, rfl⟩
  intro outcome
  cases outcome with
  | err => simp [generateClarifyingQuestions]
  | ok resp =>
    show (parseQuestionsResponse resp).length ≤ 2
    rw [parseQuestionsResponse]
    split
    · exact le_trans (List.length_take_le _ _) (by omega)
    · simp
    · rw [List.length_map]
      rw [extractQuestions]
      split
      · split
        · simp
        · exact le_trans (List.length_take_le _ _) (by omega)
      · simp

/-! ## C2: agreement of the strict-JSON path and the regex fallback -/

/-- C2 (counterexample): the regex fallback `trim`s each extracted
question while the strict JSON path does not, so for the two-question
list `["a ","b"]` embedded in prose the fallback recovers `"a"` where
the strict path on the bare array recovers `"a "`. -/
theorem regex_json_c2_counterexample :
    parseQuestionsResponse "Here: [\"a \",\"b\"] ok" = [.str "a", .str "b"] ∧
    parseQuestionsResponse "[\"a \",\"b\"]" = [.str "a ", .str "b"] ∧
    ¬ ([Json.str "a", Json.str "b"] = [Json.str "a ", Json.str "b"]) := by
  refine ⟨rfl, rfl, ?_⟩
  intro h
  injection h with hh _
  injection hh with hs
  exact absurd (congrArg String.data hs) (by decide)

theorem parseStringBody_ok (q : List Char) (f : Nat) (r : List Char)
    (h : questionCharsOk q) :
    parseStringBody (q.length + (f + 1)) (q ++ '"' :: r) = some (q, r) := by
  induction q generalizing f with
  | nil =>
    simp [parseStringBody]
  | cons c cs ih =>
    have hc := h c (List.mem_cons_self _ _)
    have hcs : questionCharsOk cs := fun x hx => h x (List.mem_cons_of_mem _ hx)
    have e : (c :: cs).length + (f + 1) = (cs.length + (f + 1)) + 1 := by
      simp [List.length_cons]
      omega
    rw [e, List.cons_append]
    simp only [parseStringBody]
    rw [if_neg hc.1, if_neg hc.2.1, if_neg (Nat.not_lt.mpr hc.2.2), ih f hcs]

theorem skipWs_not_ws (c : Char) (r : List Char) (h : isJsonWs c = false) :
    skipWs (c :: r) = c :: r := by
  simp [skipWs, List.dropWhile_cons, h]

theorem parseStringBody_ok_exact (q r : List Char) (h : questionCharsOk q) :
    parseStringBody ((q ++ '"' :: r).length + 1) (q ++ '"' :: r) = some (q, r) := by
  have e : (q ++ '"' :: r).length + 1 = q.length + ((r.length + 1) + 1) := by
    simp [List.length_append]
    omega
  rw [e]
  exact parseStringBody_ok q (r.length + 1) r h

set_option maxHeartbeats 1000000 in
theorem parseValue_string (f : Nat) (q r : List Char) (h : questionCharsOk q) :
    parseValue (f + 1) ('"' :: (q ++ '"' :: r)) = some (.str (String.mk q), r) := by
  simp only [parseValue, parseStringBody_ok_exact q r h]

theorem parseElems_bare (f : Nat) (q1 q2 : List Char) (acc : List Json)
    (h1 : questionCharsOk q1) (h2 : questionCharsOk q2) :
    parseElems (f + 3) ('"' :: (q1 ++ ('"' :: ',' :: '"' :: (q2 ++ ['"', ']'])))) acc =
      some (.arr (acc ++ [.str (String.mk q1), .str (String.mk q2)]), []) := by
  simp only [parseElems]
  rw [skipWs_not_ws _ _ (by decide)]
  rw [show f + 2 = (f + 1) + 1 from rfl, parseValue_string (f + 1) q1 _ h1]
  simp only []
  rw [skipWs_not_ws _ _ (by decide)]
  simp only []
  rw [skipWs_not_ws _ _ (by decide)]
  rw [parseValue_string f q2 _ h2]
  simp only []
  rw [skipWs_not_ws _ _ (by decide)]
  simp [List.append_assoc]

theorem parseValue_bare (f : Nat) (q1 q2 : List Char)
    (h1 : questionCharsOk q1) (h2 : questionCharsOk q2) :
    parseValue (f + 4) (bareChars q1 q2) =
      some (.arr [.str (String.mk q1), .str (String.mk q2)], []) := by
  rw [bareChars]
  have e1 : f + 4 = (f + 3) + 1 := rfl
  rw [e1]
  simp only [parseValue]
  rw [skipWs_not_ws _ _ (by decide)]
  simpa using parseElems_bare f q1 q2 [] h1 h2

theorem bareArrayStr_data (q1 q2 : String) :
    (bareArrayStr q1 q2).data = bareChars q1.data q2.data := by
  simp [bareArrayStr, bareChars, String.data_append, List.append_assoc]

theorem bareChars_length (q1 q2 : List Char) :
    (bareChars q1 q2).length = q1.length + q2.length + 7 := by
  simp [bareChars]
  omega

theorem skipWs_bareChars (a b : List Char) : skipWs (bareChars a b) = bareChars a b := by
  rw [bareChars]
  exact skipWs_not_ws _ _ (by decide)

theorem jsJsonParse_bare (q1 q2 : String)
    (h1 : questionCharsOk q1.data) (h2 : questionCharsOk q2.data) :
    jsJsonParse (bareArrayStr q1 q2) = some (.arr [.str q1, .str q2]) := by
  rw [jsJsonParse, bareArrayStr_data, skipWs_bareChars, bareChars_length]
  have e : 2 * (q1.data.length + q2.data.length + 7) + 2 =
      (2 * q1.data.length + 2 * q2.data.length + 12) + 4 := by omega
  rw [e, parseValue_bare _ _ _ h1 h2]
  have m1 : String.mk q1.data = q1 := rfl
  have m2 : String.mk q2.data = q2 := rfl
  simp [skipWs, m1, m2]

theorem dropWhile_append_all {α} (p : α → Bool) (xs ys : List α)
    (h : ∀ c ∈ xs, p c = true) :
    List.dropWhile p (xs ++ ys) = List.dropWhile p ys := by
  induction xs with
  | nil => rfl
  | cons c cs ih =>
    simp only [List.cons_append, List.dropWhile_cons, h c (List.mem_cons_self _ _), if_true]
    exact ih (fun x hx => h x (List.mem_cons_of_mem _ hx))

theorem bodyToLastClose_append (mid p2 : List Char) (h : ∀ c ∈ p2, c ≠ ']') :
    bodyToLastClose (mid ++ ']' :: p2) = some mid := by
  rw [bodyToLastClose, List.reverse_append, List.reverse_cons, List.append_assoc]
  rw [dropWhile_append_all _ _ _
    (fun c hc => by simp [h c (List.mem_reverse.mp hc)])]
  simp [List.dropWhile_cons]

theorem bracketBody_embedded (p1 mid p2 : List Char)
    (hp1 : ∀ c ∈ p1, c ≠ '[') (hp2 : ∀ c ∈ p2, c ≠ ']') :
    bracketBody (p1 ++ '[' :: (mid ++ ']' :: p2)) = some mid := by
  induction p1 with
  | nil =>
    simp [bracketBody, bodyToLastClose_append mid p2 hp2]
  | cons c cs ih =>
    have hc := hp1 c (List.mem_cons_self _ _)
    simp only [List.cons_append, bracketBody, if_neg hc]
    exact ih (fun x hx => hp1 x (List.mem_cons_of_mem _ hx))

theorem consFirst_cons (c : Char) (p : List Char) (ps : List (List Char)) :
    consFirst c (p :: ps) = (c :: p) :: ps := rfl

theorem splitQCQ_cons_ne_quote (c : Char) (rest : List Char) (hc : c ≠ '"') :
    splitQCQ (c :: rest) = consFirst c (splitQCQ rest) := by
  simp [splitQCQ, hc]

theorem splitQCQ_prepend (xs l : List Char) (p : List Char) (ps : List (List Char))
    (hxs : ∀ c ∈ xs, c ≠ '"') (hl : splitQCQ l = p :: ps) :
    splitQCQ (xs ++ l) = (xs ++ p) :: ps := by
  induction xs with
  | nil => simpa using hl
  | cons c cs ih =>
    have hc := hxs c (List.mem_cons_self _ _)
    rw [List.cons_append, splitQCQ_cons_ne_quote c _ hc,
      ih (fun x hx => hxs x (List.mem_cons_of_mem _ hx)), consFirst_cons]
    rfl

theorem splitQCQ_close (q2 : List Char) (h : ∀ c ∈ q2, c ≠ '"') :
    splitQCQ (q2 ++ ['"']) = [q2 ++ ['"']] := by
  induction q2 with
  | nil => rfl
  | cons c cs ih =>
    have hc := h c (List.mem_cons_self _ _)
    rw [List.cons_append, splitQCQ_cons_ne_quote c _ hc,
      ih (fun x hx => h x (List.mem_cons_of_mem _ hx)), consFirst_cons]

theorem splitQCQ_body (q1 q2 : List Char)
    (h1 : ∀ c ∈ q1, c ≠ '"') (h2 : ∀ c ∈ q2, c ≠ '"') (hcm : q1 ≠ [',']) :
    splitQCQ (bodyChars q1 q2) = ['"' :: q1, q2 ++ ['"']] := by
  have hrest : splitQCQ ('"' :: ',' :: '"' :: (q2 ++ ['"'])) = [] :: [q2 ++ ['"']] := by
    rw [show splitQCQ ('"' :: ',' :: '"' :: (q2 ++ ['"'])) =
        [] :: splitQCQ (q2 ++ ['"']) from rfl, splitQCQ_close q2 h2]
  cases q1 with
  | nil =>
    rw [bodyChars]
    simp only [List.nil_append]
    rw [show splitQCQ ('"' :: '"' :: ',' :: '"' :: (q2 ++ ['"'])) =
        consFirst '"' (splitQCQ ('"' :: ',' :: '"' :: (q2 ++ ['"']))) from rfl, hrest]
    rfl
  | cons a q1' =>
    have step1 : splitQCQ ('"' :: a :: (q1' ++ ('"' :: ',' :: '"' :: (q2 ++ ['"'])))) =
        consFirst '"' (splitQCQ (a :: (q1' ++ ('"' :: ',' :: '"' :: (q2 ++ ['"']))))) := by
      by_cases ha : a = ','
      · subst ha
        cases q1' with
        | nil => exact absurd rfl hcm
        | cons b q1'' =>
          have hb : b ≠ '"' := h1 b (by simp)
          simp [splitQCQ, hb]
      · simp [splitQCQ, ha]
    rw [bodyChars, List.cons_append, step1, ← List.cons_append,
      splitQCQ_prepend (a :: q1') _ [] [q2 ++ ['"']] h1 hrest]
    simp [consFirst]

theorem stripQuote1_open (q1 : List Char) (h : ∀ c ∈ q1, c ≠ '"') :
    stripQuote1 ('"' :: q1) = q1 := by
  cases hq : q1.reverse with
  | nil => simp [stripQuote1, hq]
  | cons c t =>
    have hcq : c ∈ q1 := List.mem_reverse.mp (hq ▸ List.mem_cons_self c t)
    simp [stripQuote1, hq, h c hcq]

theorem stripQuote1_close (q2 : List Char) (hne : q2 ≠ []) (h : ∀ c ∈ q2, c ≠ '"') :
    stripQuote1 (q2 ++ ['"']) = q2 := by
  cases q2 with
  | nil => exact absurd rfl hne
  | cons a q2' =>
    have ha := h a (List.mem_cons_self _ _)
    simp [stripQuote1, ha, List.reverse_append]

theorem stripBracketQuote_noquote (l : List Char) (h : ∀ c ∈ l, c ≠ '"') :
    stripBracketQuote l = l := by
  rcases l with _ | ⟨c, _ | ⟨d, t⟩⟩
  · rfl
  · rfl
  · have hd : d ≠ '"' := h d (by simp)
    cases hr : (c :: d :: t).reverse with
    | nil => exact absurd (congrArg List.length hr) (by simp)
    | cons x xs =>
      cases xs with
      | nil =>
        have hlen := congrArg List.length hr
        simp at hlen
      | cons y ys =>
        have hy : y ∈ (c :: d :: t) := List.mem_reverse.mp (by rw [hr]; simp)
        simp [stripBracketQuote, hd, hr, h y hy]

theorem cleanPiece_open (q1 : List Char) (h : ∀ c ∈ q1, c ≠ '"')
    (ht : trimChars q1 = q1) :
    cleanPiece ('"' :: q1) = q1 := by
  rw [cleanPiece, stripQuote1_open q1 h, stripBracketQuote_noquote q1 h, ht]

theorem cleanPiece_close (q2 : List Char) (hne : q2 ≠ []) (h : ∀ c ∈ q2, c ≠ '"')
    (ht : trimChars q2 = q2) :
    cleanPiece (q2 ++ ['"']) = q2 := by
  rw [cleanPiece, stripQuote1_close q2 hne h, stripBracketQuote_noquote q2 h, ht]

theorem extractQuestions_embedded (p1 q1 q2 p2 : List Char)
    (h1 : ∀ c ∈ q1, c ≠ '"') (h2 : ∀ c ∈ q2, c ≠ '"')
    (ht1 : trimChars q1 = q1) (ht2 : trimChars q2 = q2)
    (hne1 : q1 ≠ []) (hne2 : q2 ≠ []) (hcm : q1 ≠ [','])
    (hp1 : ∀ c ∈ p1, c ≠ '[') (hp2 : ∀ c ∈ p2, c ≠ ']') :
    extractQuestions (p1 ++ (bareChars q1 q2 ++ p2)) = [q1, q2] := by
  have hdecomp : p1 ++ (bareChars q1 q2 ++ p2) =
      p1 ++ '[' :: (bodyChars q1 q2 ++ ']' :: p2) := by
    simp [bareChars, bodyChars, List.append_assoc]
  rw [hdecomp, extractQuestions, bracketBody_embedded p1 (bodyChars q1 q2) p2 hp1 hp2]
  simp only []
  rw [if_neg (show ¬ bodyChars q1 q2 = [] by simp [bodyChars])]
  rw [splitQCQ_body q1 q2 h1 h2 hcm]
  rw [List.map_cons, List.map_cons, List.map_nil,
    cleanPiece_open q1 h1 ht1, cleanPiece_close q2 hne2 h2 ht2]
  have e1 : q1.isEmpty = false := by
    cases q1 with
    | nil => exact absurd rfl hne1
    | cons a t => rfl
  have e2 : q2.isEmpty = false := by
    cases q2 with
    | nil => exact absurd rfl hne2
    | cons a t => rfl
  simp [List.filter_cons, e1, e2]

/-- C2 (amended): for a Draft Generator response that is not valid JSON
and embeds the two-question list `["q1","q2"]` in prose, the regex
fallback returns exactly the strings the strict JSON path returns on the
bare array — *provided* each question is non-empty, already trimmed (no
leading/trailing whitespace), contains no double quote, backslash or
control character, the first question is not the single character `,`,
and the prose carries no `[` before the list and no `]` after it. -/
theorem regex_json_c2_amended (p1 p2 q1 q2 : String)
    (hfull : jsJsonParse (p1 ++ bareArrayStr q1 q2 ++ p2) = none)
    (h1 : questionCharsOk q1.data) (h2 : questionCharsOk q2.data)
    (ht1 : trimChars q1.data = q1.data) (ht2 : trimChars q2.data = q2.data)
    (hne1 : q1 ≠ "") (hne2 : q2 ≠ "") (hcm : q1 ≠ ",")
    (hp1 : ∀ c ∈ p1.data, c ≠ '[') (hp2 : ∀ c ∈ p2.data, c ≠ ']') :
    parseQuestionsResponse (p1 ++ bareArrayStr q1 q2 ++ p2) = [.str q1, .str q2] ∧
    parseQuestionsResponse (bareArrayStr q1 q2) = [.str q1, .str q2] := by
  have hq1 : ∀ c ∈ q1.data, c ≠ '"' := fun c hc => (h1 c hc).1
  have hq2 : ∀ c ∈ q2.data, c ≠ '"' := fun c hc => (h2 c hc).1
  have hd1 : q1.data ≠ [] := by
    intro h
    exact hne1 (show q1 = "" from congrArg String.mk h)
  have hd2 : q2.data ≠ [] := by
    intro h
    exact hne2 (show q2 = "" from congrArg String.mk h)
  have hdcm : q1.data ≠ [','] := by
    intro h
    exact hcm (show q1 = "," from congrArg String.mk h)
  constructor
  · rw [parseQuestionsResponse, hfull]
    have hdata : (p1 ++ bareArrayStr q1 q2 ++ p2).data =
        p1.data ++ (bareChars q1.data q2.data ++ p2.data) := by
      rw [String.data_append, String.data_append, bareArrayStr_data, List.append_assoc]
    rw [hdata,
      extractQuestions_embedded p1.data q1.data q2.data p2.data
        hq1 hq2 ht1 ht2 hd1 hd2 hdcm hp1 hp2]
    rfl
  · rw [parseQuestionsResponse, jsJsonParse_bare q1 q2 h1 h2]
    rfl

theorem regex_json_c2_witness :
    (parseQuestionsResponse ("Sure: " ++ bareArrayStr "Why?" "Who, and when?" ++ " hth") =
      [.str "Why?", .str "Who, and when?"] ∧
     parseQuestionsResponse (bareArrayStr "Why?" "Who, and when?") =
      [.str "Why?", .str "Who, and when?"]) :=
  regex_json_c2_amended "Sure: " " hth" "Why?" "Who, and when?"
    rfl (by decide) (by decide) (by decide) (by decide)
    (by decide) (by decide) (by decide) (by decide) (by decide)

end DecisionMemo
